import Mathlib

/-!
# OOP/01.cpp : copy semantics, construction order and static members

A shallow embedding of the classes of `src/OOP/01.cpp`.

* The free store is a finite table of cells indexed by address.  `new double`
  asks an allocator for an address that is not allocated at the moment, so a
  released address may be handed out again.  Allocation always succeeds:
  `bad_alloc` is not modelled.
* `cout` is the text written so far; `<< endl` appends a newline.
* A `double` is kept as its 64-bit pattern: the classes only store, copy and
  load doubles, they never compute with them.
* An `int` is an integer; the one place where the program does arithmetic on an
  `int` (`count++`) reduces the result to 32 bits.
* Dereferencing or deleting a pointer whose cell is not allocated is undefined
  behaviour in C++; the embedding reports it as a `Fault`.
-/

namespace OOP

/-- The 64-bit pattern of a C++ `double`. -/
abbrev Double := Fin (2 ^ 64)

/-- The address held by a `double *`. -/
abbrev Addr := Nat

/-- The free store: `some v` is an allocated cell holding `v`, `none` is a cell
that is not allocated (never handed out, or released). -/
abbrev Heap := List (Option Double)

/-- Undefined behaviour made observable. -/
inductive Fault where
  /-- The dereference `*p` where the cell of `p` is not allocated. -/
  | deadCell
  /-- The operand of `delete p` is a cell that is not allocated (released before). -/
  | badDelete
  deriving DecidableEq, Repr

namespace Heap

/-- The content of the cell at an address, `none` when it is not allocated. -/
def lookup : Heap → Addr → Option Double
  | [], _ => none
  | c :: _, 0 => c
  | _ :: h, a + 1 => lookup h a

/-- Make the cell at an address allocated with the given content. -/
def store : Heap → Addr → Double → Heap
  | [], 0, v => [some v]
  | [], a + 1, v => none :: store [] a v
  | _ :: h, 0, v => some v :: h
  | c :: h, a + 1, v => c :: store h a v

/-- Give the cell at an address back to the free store. -/
def release : Heap → Addr → Heap
  | [], _ => []
  | _ :: h, 0 => none :: h
  | c :: h, a + 1 => c :: release h a

/-- Whether the cell at an address is allocated. -/
def live (h : Heap) (a : Addr) : Bool := (lookup h a).isSome

end Heap

/-- The policy of `operator new`: it names an address for the next cell, and
that address is never one that is allocated at the time of the call. -/
structure Allocator where
  pick : Heap → Addr
  pick_free : ∀ h : Heap, Heap.lookup h (pick h) = none

/-- The state of the running program that the classes touch. -/
structure World where
  /-- The free store. -/
  heap : Heap
  /-- Everything written to `cout` so far. -/
  out : String
  /-- The static member `StaticVariableExample::count`. -/
  count : Int
  deriving DecidableEq, Repr

/-- The state at program start: nothing allocated, nothing written,
`int StaticVariableExample::count = 0`. -/
def World.init : World := { heap := [], out := "", count := 0 }

/-- The statement `cout << s << endl`. -/
def World.println (w : World) (s : String) : World :=
  { w with out := w.out ++ s ++ "\n" }

/-- The expression `new double(v)`: a cell obtained from the allocator, initialised to `v`. -/
def World.newDouble (A : Allocator) (v : Double) (w : World) : Addr × World :=
  (A.pick w.heap, { w with heap := Heap.store w.heap (A.pick w.heap) v })

/-- The expression `*p` as an rvalue. -/
def World.read (w : World) (p : Addr) : Except Fault Double :=
  match Heap.lookup w.heap p with
  | some v => Except.ok v
  | none => Except.error Fault.deadCell

/-- The assignment `*p = v`. -/
def World.write (w : World) (p : Addr) (v : Double) : Except Fault World :=
  match Heap.lookup w.heap p with
  | some _ => Except.ok { w with heap := Heap.store w.heap p v }
  | none => Except.error Fault.deadCell

/-- The statement `delete p`. -/
def World.delete (w : World) (p : Addr) : Except Fault World :=
  match Heap.lookup w.heap p with
  | some _ => Except.ok { w with heap := Heap.release w.heap p }
  | none => Except.error Fault.badDelete

/-- An allocator that never hands an address out twice. -/
def bumpAllocator : Allocator where
  pick := fun h => h.length
  pick_free := by
    intro h
    induction h with
    | nil => rfl
    | cons c h ih => simpa [Heap.lookup] using ih

/-- The index of the first cell of the table that is not allocated, or the
length of the table when every cell is. -/
def firstFree : Heap → Addr
  | [] => 0
  | none :: _ => 0
  | some _ :: h => firstFree h + 1

/-- An allocator that hands out the lowest address that is not allocated, so
it reuses released cells. -/
def firstFitAllocator : Allocator where
  pick := firstFree
  pick_free := by
    intro h
    induction h with
    | nil => rfl
    | cons c h ih =>
      cases c with
      | none => rfl
      | some v => simpa [firstFree, Heap.lookup] using ih

/-- The value an `int` holds after an arithmetic result is stored into it:
reduction to 32 bits, two's complement.  C++ leaves signed overflow undefined;
this is what the usual targets produce, and in no case can an `int` hold a
value outside `-2^31 .. 2^31 - 1`. -/
def wrapInt (i : Int) : Int := (i + 2 ^ 31) % 2 ^ 32 - 2 ^ 31

/-- The data members of `Teacher`; `salary` is the private one. -/
structure Teacher where
  salary : Int
  name : String
  dept : String
  subject : String
  deriving DecidableEq, Repr

namespace Teacher

/-- The constructor `Teacher()`.  The strings start empty; `salary` is not initialised and
`indet` stands for whatever it holds. -/
def ctor (indet : Int) (w : World) : Teacher × World :=
  let this : Teacher := { salary := indet, name := "", dept := "", subject := "" }
  let w := w.println "Constructor1 called"
  let this := { this with dept := "CSE" }
  (this, w)

/-- The constructor `Teacher(string name)`. -/
def ctorName (name : String) (indet : Int) (w : World) : Teacher × World :=
  let this : Teacher := { salary := indet, name := "", dept := "", subject := "" }
  let w := w.println "Constructor2 called"
  let this := { this with dept := "CSE" }
  let this := { this with name := name }
  (this, w)

/-- The copy constructor `Teacher(Teacher &t)`.  The argument is a reference, so the result carries
the new object, then `t` as the call leaves it, then the world. -/
def copy (t : Teacher) (indet : Int) (w : World) : Teacher × Teacher × World :=
  let this : Teacher := { salary := indet, name := "", dept := "", subject := "" }
  let w := w.println "Copy constructor called"
  let this := { this with name := t.name }
  let this := { this with dept := t.dept }
  let this := { this with subject := t.subject }
  let this := { this with salary := t.salary }
  (this, t, w)

/-- The member `void changeDept(string newDept)`. -/
def changeDept (this : Teacher) (newDept : String) : Teacher :=
  { this with dept := newDept }

/-- The member `void setSalary(int s)`. -/
def setSalary (this : Teacher) (s : Int) : Teacher :=
  { this with salary := s }

/-- The member `int getSalary()`. -/
def getSalary (this : Teacher) : Int := this.salary

end Teacher

/-! ## class StudentShallow -/

/-- The data members of `StudentShallow`. -/
structure StudentShallow where
  name : String
  cgpaptr : Addr
  deriving DecidableEq, Repr

namespace StudentShallow

/-- The constructor `StudentShallow(string name, double cgpa)`: `new double()` gives a cell
holding `0.0`, which is then overwritten through the pointer. -/
def ctor (A : Allocator) (name : String) (cgpa : Double) (w : World) :
    Except Fault (StudentShallow × World) :=
  let (p, w) := w.newDouble A 0
  match w.write p cgpa with
  | Except.ok w => Except.ok ({ name := name, cgpaptr := p }, w)
  | Except.error f => Except.error f

/-- The copy constructor `StudentShallow(StudentShallow &s)`: the pointer itself is copied.  The
result carries the new object, then `s` as the call leaves it, then the world. -/
def copy (s : StudentShallow) (w : World) : StudentShallow × StudentShallow × World :=
  let w := w.println "Shallow copy constructor called"
  let this : StudentShallow := { name := s.name, cgpaptr := s.cgpaptr }
  (this, s, w)

/-- The member `void getInfo()`; `fmt` is the text `ostream` produces for a `double`. -/
def getInfo (fmt : Double → String) (this : StudentShallow) (w : World) : Except Fault World :=
  let w := w.println ("Name: " ++ this.name)
  match w.read this.cgpaptr with
  | Except.ok v => Except.ok (w.println ("CGPA: " ++ fmt v))
  | Except.error f => Except.error f

/-- The destructor `~StudentShallow()`: `delete cgpaptr`. -/
def dtor (this : StudentShallow) (w : World) : Except Fault World :=
  w.delete this.cgpaptr

end StudentShallow

/-! ## class StudentDeep -/

/-- The data members of `StudentDeep`. -/
structure StudentDeep where
  name : String
  cgpaptr : Addr
  deriving DecidableEq, Repr

namespace StudentDeep

/-- The constructor `StudentDeep(string name, double cgpa)`. -/
def ctor (A : Allocator) (name : String) (cgpa : Double) (w : World) :
    Except Fault (StudentDeep × World) :=
  let (p, w) := w.newDouble A 0
  match w.write p cgpa with
  | Except.ok w => Except.ok ({ name := name, cgpaptr := p }, w)
  | Except.error f => Except.error f

/-- The copy constructor `StudentDeep(StudentDeep &s)`: `new double(*s.cgpaptr)`.  The result
carries the new object, then `s` as the call leaves it, then the world. -/
def copy (A : Allocator) (s : StudentDeep) (w : World) :
    Except Fault (StudentDeep × StudentDeep × World) :=
  let w := w.println "Copy constructor (Deep copy) called"
  match w.read s.cgpaptr with
  | Except.ok v =>
    let (p, w) := w.newDouble A v
    Except.ok ({ name := s.name, cgpaptr := p }, s, w)
  | Except.error f => Except.error f

/-- The member `void getInfo()`; `fmt` is the text `ostream` produces for a `double`. -/
def getInfo (fmt : Double → String) (this : StudentDeep) (w : World) : Except Fault World :=
  let w := w.println ("Name: " ++ this.name)
  match w.read this.cgpaptr with
  | Except.ok v => Except.ok (w.println ("CGPA: " ++ fmt v))
  | Except.error f => Except.error f

/-- The destructor `~StudentDeep()`: `delete cgpaptr`. -/
def dtor (this : StudentDeep) (w : World) : Except Fault World :=
  w.delete this.cgpaptr

end StudentDeep

/-! ## class Person and class Student -/

/-- The data members of `Person`. -/
structure Person where
  name : String
  age : Int
  deriving DecidableEq, Repr

/-- The constructor `Person(string name, int age)`. -/
def Person.ctor (name : String) (age : Int) (w : World) : Person × World :=
  let w := w.println "Person constructor called"
  ({ name := name, age := age }, w)

/-- The destructor `~Person()`. -/
def Person.dtor (_this : Person) (w : World) : World :=
  w.println "Person destructor called"

/-- The data of `class Student : public Person`: the base sub-object and `rollno`. -/
structure Student extends Person where
  rollno : Int
  deriving DecidableEq, Repr

namespace Student

/-- The constructor `Student(string name, int age, int rollno) : Person(name, age)`: the base
is initialised by the member-initialiser list, then the body runs. -/
def ctor (name : String) (age : Int) (rollno : Int) (w : World) : Student × World :=
  let (base, w) := Person.ctor name age w
  let w := w.println "Student constructor called"
  ({ toPerson := base, rollno := rollno }, w)

/-- The member `void getInfo()`. -/
def getInfo (this : Student) (w : World) : World :=
  let w := w.println ("Name: " ++ this.name)
  let w := w.println ("Age: " ++ toString this.age)
  w.println ("Roll No: " ++ toString this.rollno)

/-- The destructor `~Student()`: the body runs, then the destructor of the base sub-object. -/
def dtor (this : Student) (w : World) : World :=
  let w := w.println "Student destructor called"
  Person.dtor this.toPerson w

end Student

/-- The function `int main()`: the exit status and the world at exit.  `s1` is destroyed
when the block is left, after the return value has been fixed. -/
def main (w : World) : Int × World :=
  let (s1, w) := Student.ctor "aniket" 20 123 w
  let w := s1.getInfo w
  let status : Int := 0
  let w := s1.dtor w
  (status, w)

/-! ## class StaticVariableExample -/

/-- A `StaticVariableExample` object: the class has no non-static data member. -/
structure StaticVariableExample where
  deriving DecidableEq, Repr

/-- The constructor `StaticVariableExample()`: `count++`. -/
def StaticVariableExample.ctor (w : World) : StaticVariableExample × World :=
  ({}, { w with count := wrapInt (w.count + 1) })

/-- The implicit `~StaticVariableExample()`: the class declares no destructor
and has no members, so nothing happens. -/
def StaticVariableExample.dtor (_this : StaticVariableExample) (w : World) : World := w

/-- The member `static void displayCount()`. -/
def StaticVariableExample.displayCount (w : World) : World :=
  w.println ("Count: " ++ toString w.count)

/-! ## Programs over `StaticVariableExample` -/

/-- What a program can do with `StaticVariableExample` instances. -/
inductive StaticOp where
  /-- Define one more instance. -/
  | construct
  /-- End the lifetime of the `i`-th instance that is alive. -/
  | destroy (i : Nat)
  deriving DecidableEq, Repr

/-- The world together with the instances that are alive. -/
structure StaticSys where
  world : World
  objs : List StaticVariableExample
  deriving DecidableEq, Repr

/-- The program start: `World.init` and no instance. -/
def StaticSys.init : StaticSys := { world := World.init, objs := [] }

/-- One operation; `none` when it names an instance that is not alive. -/
def StaticSys.step : StaticOp → StaticSys → Option StaticSys
  | StaticOp.construct, s =>
    let (o, w) := StaticVariableExample.ctor s.world
    some { world := w, objs := s.objs ++ [o] }
  | StaticOp.destroy i, s =>
    match s.objs[i]? with
    | some o => some { world := StaticVariableExample.dtor o s.world, objs := s.objs.eraseIdx i }
    | none => none

/-- A sequence of operations, left to right. -/
def StaticSys.run : List StaticOp → StaticSys → Option StaticSys
  | [], s => some s
  | op :: ops, s =>
    match StaticSys.step op s with
    | some s1 => StaticSys.run ops s1
    | none => none

/-- What a program can do with `StudentDeep` instances. -/
inductive DeepOp where
  /-- The definition `StudentDeep s(name, cgpa);` -/
  | construct (name : String) (cgpa : Double)
  /-- The definition `StudentDeep c(s);` where `s` is the `i`-th instance that is alive. -/
  | copy (i : Nat)
  /-- The assignment `*(s.cgpaptr) = v;` where `s` is the `i`-th instance that is alive. -/
  | write (i : Nat) (v : Double)
  /-- End the lifetime of the `i`-th instance that is alive. -/
  | destroy (i : Nat)
  deriving DecidableEq, Repr

/-- The world together with the `StudentDeep` instances that are alive. -/
structure DeepSys where
  world : World
  objs : List StudentDeep
  deriving DecidableEq, Repr

/-- Why a program over `StudentDeep` stops. -/
inductive Stop where
  /-- The operation names an instance that is not alive. -/
  | noInstance
  /-- The operation ran into undefined behaviour. -/
  | fault (f : Fault)
  deriving DecidableEq, Repr

/-- One operation. -/
def DeepSys.step (A : Allocator) : DeepOp → DeepSys → Except Stop DeepSys
  | DeepOp.construct name cgpa, s =>
    match StudentDeep.ctor A name cgpa s.world with
    | Except.ok (o, w) => Except.ok { world := w, objs := s.objs ++ [o] }
    | Except.error f => Except.error (Stop.fault f)
  | DeepOp.copy i, s =>
    match s.objs[i]? with
    | some src =>
      match StudentDeep.copy A src s.world with
      | Except.ok (o, src1, w) => Except.ok { world := w, objs := s.objs.set i src1 ++ [o] }
      | Except.error f => Except.error (Stop.fault f)
    | none => Except.error Stop.noInstance
  | DeepOp.write i v, s =>
    match s.objs[i]? with
    | some o =>
      match s.world.write o.cgpaptr v with
      | Except.ok w => Except.ok { s with world := w }
      | Except.error f => Except.error (Stop.fault f)
    | none => Except.error Stop.noInstance
  | DeepOp.destroy i, s =>
    match s.objs[i]? with
    | some o =>
      match StudentDeep.dtor o s.world with
      | Except.ok w => Except.ok { world := w, objs := s.objs.eraseIdx i }
      | Except.error f => Except.error (Stop.fault f)
    | none => Except.error Stop.noInstance

/-- A sequence of operations, left to right. -/
def DeepSys.run (A : Allocator) : List DeepOp → DeepSys → Except Stop DeepSys
  | [], s => Except.ok s
  | op :: ops, s =>
    match DeepSys.step A op s with
    | Except.ok s1 => DeepSys.run A ops s1
    | Except.error e => Except.error e

/-- The pattern of the `double` `9.5`. -/
def d9_5 : Double := 0x4023000000000000

/-- The pattern of the `double` `9.8`. -/
def d9_8 : Double := 0x402399999999999A

/-- Exclusive ownership: no two live instances hold the same address, and the
cell of every live instance is allocated. -/
def DeepSys.Owned (s : DeepSys) : Prop :=
  (s.objs.map (fun o => o.cgpaptr)).Nodup
    ∧ ∀ o ∈ s.objs, Heap.live s.world.heap o.cgpaptr = true

instance (s : DeepSys) : Decidable s.Owned := by
  unfold DeepSys.Owned
  infer_instance

/-- The deep-copy example of `main` and two more steps:
`StudentDeep s3("rahul", 9.5); StudentDeep s4(s3); *(s4.cgpaptr) = 9.8;`,
then `s3` is destroyed and `s4` is copied. -/
def deepExample : List DeepOp :=
  [DeepOp.construct "rahul" d9_5, DeepOp.copy 0, DeepOp.write 1 d9_8, DeepOp.destroy 0,
    DeepOp.copy 0]

/-- The state `deepExample` ends in under the first-fit allocator: the last
copy sits in the cell that the first instance released. -/
def deepExampleEnd : DeepSys :=
  { world :=
      { heap := [some d9_8, some d9_8],
        out := "Copy constructor (Deep copy) called\nCopy constructor (Deep copy) called\n",
        count := 0 },
    objs := [{ name := "rahul", cgpaptr := 1 }, { name := "rahul", cgpaptr := 0 }] }

/-! ## The free store: basic facts -/

theorem Heap.lookup_store_same (h : Heap) (a : Addr) (v : Double) :
    Heap.lookup (Heap.store h a v) a = some v := by
  induction h generalizing a with
  | nil =>
    induction a with
    | zero => rfl
    | succ a ih => simpa [Heap.store, Heap.lookup] using ih
  | cons c h ih =>
    cases a with
    | zero => rfl
    | succ a => simpa [Heap.store, Heap.lookup] using ih a

theorem Heap.lookup_store_other (h : Heap) (a b : Addr) (v : Double) (hne : b ≠ a) :
    Heap.lookup (Heap.store h a v) b = Heap.lookup h b := by
  induction h generalizing a b with
  | nil =>
    induction a generalizing b with
    | zero =>
      cases b with
      | zero => exact absurd rfl hne
      | succ b => simp [Heap.store, Heap.lookup]
    | succ a ih =>
      cases b with
      | zero => simp [Heap.store, Heap.lookup]
      | succ b =>
        have hb : b ≠ a := fun e => hne (by rw [e])
        simpa [Heap.store, Heap.lookup] using ih b hb
  | cons c h ih =>
    cases a with
    | zero =>
      cases b with
      | zero => exact absurd rfl hne
      | succ b => simp [Heap.store, Heap.lookup]
    | succ a =>
      cases b with
      | zero => simp [Heap.store, Heap.lookup]
      | succ b =>
        have hb : b ≠ a := fun e => hne (by rw [e])
        simpa [Heap.store, Heap.lookup] using ih a b hb

theorem Heap.lookup_release_same (h : Heap) (a : Addr) :
    Heap.lookup (Heap.release h a) a = none := by
  induction h generalizing a with
  | nil => rfl
  | cons c h ih =>
    cases a with
    | zero => rfl
    | succ a => simpa [Heap.release, Heap.lookup] using ih a

theorem Heap.lookup_release_other (h : Heap) (a b : Addr) (hne : b ≠ a) :
    Heap.lookup (Heap.release h a) b = Heap.lookup h b := by
  induction h generalizing a b with
  | nil => rfl
  | cons c h ih =>
    cases a with
    | zero =>
      cases b with
      | zero => exact absurd rfl hne
      | succ b => simp [Heap.release, Heap.lookup]
    | succ a =>
      cases b with
      | zero => simp [Heap.release, Heap.lookup]
      | succ b =>
        have hb : b ≠ a := fun e => hne (by rw [e])
        simpa [Heap.release, Heap.lookup] using ih a b hb

theorem World.read_of_live {w : World} {p : Addr} {x : Double}
    (h : Heap.lookup w.heap p = some x) : w.read p = Except.ok x := by
  simp [World.read, h]

theorem World.write_of_live {w : World} {p : Addr} {x : Double} (v : Double)
    (h : Heap.lookup w.heap p = some x) :
    w.write p v = Except.ok { w with heap := Heap.store w.heap p v } := by
  simp [World.write, h]

theorem World.delete_of_live {w : World} {p : Addr} {x : Double}
    (h : Heap.lookup w.heap p = some x) :
    w.delete p = Except.ok { w with heap := Heap.release w.heap p } := by
  simp [World.delete, h]

theorem World.delete_of_dead {w : World} {p : Addr}
    (h : Heap.lookup w.heap p = none) : w.delete p = Except.error Fault.badDelete := by
  simp [World.delete, h]

theorem StudentDeep.deep_ctor_eq (A : Allocator) (name : String) (cgpa : Double) (w : World) :
    StudentDeep.ctor A name cgpa w
      = Except.ok ({ name := name, cgpaptr := A.pick w.heap },
          { w with heap := Heap.store (Heap.store w.heap (A.pick w.heap) 0) (A.pick w.heap) cgpa }) := by
  simp [StudentDeep.ctor, World.newDouble, World.write, Heap.lookup_store_same]

theorem StudentShallow.shallow_ctor_eq (A : Allocator) (name : String) (cgpa : Double) (w : World) :
    StudentShallow.ctor A name cgpa w
      = Except.ok ({ name := name, cgpaptr := A.pick w.heap },
          { w with heap := Heap.store (Heap.store w.heap (A.pick w.heap) 0) (A.pick w.heap) cgpa }) := by
  simp [StudentShallow.ctor, World.newDouble, World.write, Heap.lookup_store_same]

theorem StudentDeep.deep_copy_eq (A : Allocator) (s : StudentDeep) (w : World) {x : Double}
    (h : Heap.lookup w.heap s.cgpaptr = some x) :
    StudentDeep.copy A s w
      = Except.ok ({ name := s.name, cgpaptr := A.pick w.heap }, s,
          { (w.println "Copy constructor (Deep copy) called") with
            heap := Heap.store w.heap (A.pick w.heap) x }) := by
  simp [StudentDeep.copy, World.newDouble, World.read, World.println, h]

/-- The address the allocator names differs from every allocated address. -/
theorem Allocator.pick_ne_live (A : Allocator) (h : Heap) {a : Addr} {x : Double}
    (ha : Heap.lookup h a = some x) : A.pick h ≠ a := by
  intro e
  have := A.pick_free h
  rw [e, ha] at this
  cases this

theorem Heap.live_iff {h : Heap} {a : Addr} :
    Heap.live h a = true ↔ ∃ x, Heap.lookup h a = some x := by
  simp [Heap.live, Option.isSome_iff_exists]

theorem Heap.live_store_of_live {h : Heap} {a b : Addr} (v : Double)
    (hb : Heap.live h b = true) : Heap.live (Heap.store h a v) b = true := by
  by_cases e : b = a
  · subst e
    simp [Heap.live, Heap.lookup_store_same]
  · simpa [Heap.live, Heap.lookup_store_other _ _ _ _ e] using hb

theorem Heap.live_store_same (h : Heap) (a : Addr) (v : Double) :
    Heap.live (Heap.store h a v) a = true := by
  simp [Heap.live, Heap.lookup_store_same]

theorem List.set_of_getElem? {α : Type} :
    ∀ (l : List α) (i : Nat) (o : α), l[i]? = some o → l.set i o = l
  | [], _, _, h => by simp at h
  | a :: l, 0, o, h => by
    simp only [List.getElem?_cons_zero, Option.some.injEq] at h
    simp [h]
  | a :: l, i + 1, o, h => by
    simp only [List.getElem?_cons_succ] at h
    simp [List.set_of_getElem? l i o h]

/-- In a list without repeated keys, an element left after erasing position
`i` has a key different from the one that stood at `i`. -/
theorem List.key_ne_of_mem_eraseIdx {α β : Type} (f : α → β) :
    ∀ (l : List α) (i : Nat) (o o1 : α), (l.map f).Nodup → l[i]? = some o →
      o1 ∈ l.eraseIdx i → f o1 ≠ f o
  | [], _, _, _, _, h, _ => by simp at h
  | a :: l, 0, o, o1, hnd, h, hm => by
    simp only [List.getElem?_cons_zero, Option.some.injEq] at h
    subst h
    simp only [List.eraseIdx_cons_zero] at hm
    simp only [List.map_cons, List.nodup_cons, List.mem_map, not_exists, not_and] at hnd
    exact hnd.1 o1 hm
  | a :: l, i + 1, o, o1, hnd, h, hm => by
    simp only [List.getElem?_cons_succ] at h
    simp only [List.eraseIdx_cons_succ, List.mem_cons] at hm
    simp only [List.map_cons, List.nodup_cons, List.mem_map, not_exists, not_and] at hnd
    rcases hm with rfl | hm
    · exact fun e => hnd.1 o (List.getElem?_mem h) e.symm
    · exact List.key_ne_of_mem_eraseIdx f l i o o1 hnd.2 h hm

/-- In a list without repeated keys, elements at different positions have
different keys. -/
theorem List.key_ne_of_index_ne {α β : Type} (f : α → β) :
    ∀ (l : List α) (i j : Nat) (oi oj : α), (l.map f).Nodup → i ≠ j →
      l[i]? = some oi → l[j]? = some oj → f oi ≠ f oj
  | [], _, _, _, _, _, _, h, _ => by simp at h
  | a :: l, 0, 0, _, _, _, hij, _, _ => absurd rfl hij
  | a :: l, 0, j + 1, oi, oj, hnd, _, hi, hj => by
    simp only [List.getElem?_cons_zero, Option.some.injEq] at hi
    simp only [List.getElem?_cons_succ] at hj
    simp only [List.map_cons, List.nodup_cons, List.mem_map, not_exists, not_and] at hnd
    subst hi
    exact fun e => hnd.1 oj (List.getElem?_mem hj) e.symm
  | a :: l, i + 1, 0, oi, oj, hnd, _, hi, hj => by
    simp only [List.getElem?_cons_zero, Option.some.injEq] at hj
    simp only [List.getElem?_cons_succ] at hi
    simp only [List.map_cons, List.nodup_cons, List.mem_map, not_exists, not_and] at hnd
    subst hj
    exact hnd.1 oi (List.getElem?_mem hi)
  | a :: l, i + 1, j + 1, oi, oj, hnd, hij, hi, hj => by
    simp only [List.getElem?_cons_succ] at hi hj
    simp only [List.map_cons, List.nodup_cons] at hnd
    exact List.key_ne_of_index_ne f l i j oi oj hnd.2 (fun e => hij (by rw [e])) hi hj

/-- Ownership survives an instance that takes a cell from the allocator. -/
theorem DeepSys.Owned.push {A : Allocator} {s : DeepSys} (hs : s.Owned) (name : String)
    (out : String) (hp : Heap) (hlive : ∀ a, Heap.live s.world.heap a = true → Heap.live hp a = true)
    (hnew : Heap.live hp (A.pick s.world.heap) = true) :
    DeepSys.Owned { world := { s.world with heap := hp, out := out },
                    objs := s.objs ++ [{ name := name, cgpaptr := A.pick s.world.heap }] } := by
  obtain ⟨hnd, hl⟩ := hs
  constructor
  · simp only [List.map_append, List.map_cons, List.map_nil]
    rw [List.nodup_append]
    refine ⟨hnd, List.nodup_singleton _, ?_⟩
    intro p hp1 hp2
    simp only [List.mem_singleton] at hp2
    subst hp2
    simp only [List.mem_map] at hp1
    obtain ⟨o, ho, e⟩ := hp1
    obtain ⟨x, hx⟩ := Heap.live_iff.mp (hl o ho)
    exact A.pick_ne_live _ hx e.symm
  · intro o ho
    simp only [List.mem_append, List.mem_singleton] at ho
    rcases ho with ho | rfl
    · exact hlive _ (hl o ho)
    · exact hnew

/-- Every operation keeps exclusive ownership. -/
theorem DeepSys.step_owned (A : Allocator) (op : DeepOp) (s s1 : DeepSys) (hs : s.Owned)
    (h : DeepSys.step A op s = Except.ok s1) : s1.Owned := by
  cases op with
  | construct name cgpa =>
    simp only [DeepSys.step, StudentDeep.deep_ctor_eq, Except.ok.injEq] at h
    subst h
    exact hs.push name s.world.out _
      (fun a ha => Heap.live_store_of_live _ (Heap.live_store_of_live _ ha))
      (Heap.live_store_same _ _ _)
  | copy i =>
    simp only [DeepSys.step] at h
    cases hi : s.objs[i]? with
    | none => simp [hi] at h
    | some src =>
      obtain ⟨x, hx⟩ := Heap.live_iff.mp (hs.2 src (List.getElem?_mem hi))
      simp only [hi, StudentDeep.deep_copy_eq A src s.world hx, Except.ok.injEq,
        List.set_of_getElem? _ _ _ hi] at h
      subst h
      exact hs.push src.name _ _ (fun a ha => Heap.live_store_of_live _ ha)
        (Heap.live_store_same _ _ _)
  | write i v =>
    simp only [DeepSys.step] at h
    cases hi : s.objs[i]? with
    | none => simp [hi] at h
    | some o =>
      obtain ⟨x, hx⟩ := Heap.live_iff.mp (hs.2 o (List.getElem?_mem hi))
      simp only [hi, World.write_of_live v hx, Except.ok.injEq] at h
      subst h
      exact ⟨hs.1, fun o1 ho1 => Heap.live_store_of_live _ (hs.2 o1 ho1)⟩
  | destroy i =>
    simp only [DeepSys.step] at h
    cases hi : s.objs[i]? with
    | none => simp [hi] at h
    | some o =>
      obtain ⟨x, hx⟩ := Heap.live_iff.mp (hs.2 o (List.getElem?_mem hi))
      simp only [hi, StudentDeep.dtor, World.delete_of_live hx, Except.ok.injEq] at h
      subst h
      refine ⟨hs.1.sublist ((List.eraseIdx_sublist _ _).map _), ?_⟩
      intro o1 ho1
      have hne := List.key_ne_of_mem_eraseIdx (fun o => o.cgpaptr) _ _ _ _ hs.1 hi ho1
      have hmem : o1 ∈ s.objs := (List.eraseIdx_sublist _ _).subset ho1
      simpa [Heap.live, Heap.lookup_release_other _ _ _ hne] using hs.2 o1 hmem

/-- Every run keeps exclusive ownership. -/
theorem DeepSys.run_owned (A : Allocator) (ops : List DeepOp) :
    ∀ s s1 : DeepSys, s.Owned → DeepSys.run A ops s = Except.ok s1 → s1.Owned := by
  induction ops with
  | nil =>
    intro s s1 hs h
    simp only [DeepSys.run, Except.ok.injEq] at h
    subst h
    exact hs
  | cons op ops ih =>
    intro s s1 hs h
    simp only [DeepSys.run] at h
    cases hstep : DeepSys.step A op s with
    | error e => simp [hstep] at h
    | ok s2 =>
      simp only [hstep] at h
      exact ih s2 s1 (DeepSys.step_owned A op s s2 hs hstep) h

/-! ## Construction and destruction order -/

/-- C3: for every name, age and roll number, constructing a `Student` writes
"Person constructor called" and after it "Student constructor called", and
destroying that `Student` writes "Student destructor called" and after it
"Person destructor called"; the constructed object holds the three arguments. -/
theorem student_ctor_dtor_order (name : String) (age rollno : Int) (w : World) :
    (Student.ctor name age rollno w).2.out
        = w.out ++ "Person constructor called\n" ++ "Student constructor called\n"
      ∧ (Student.ctor name age rollno w).1
        = { name := name, age := age, rollno := rollno }
      ∧ ∀ w1 : World, (Student.dtor (Student.ctor name age rollno w).1 w1).out
        = w1.out ++ "Student destructor called\n" ++ "Person destructor called\n" := by
  refine ⟨?_, rfl, ?_⟩
  · simp [Student.ctor, Person.ctor, World.println, String.append_assoc]
  · intro w1
    simp [Student.dtor, Person.dtor, World.println, String.append_assoc]

/-- C9: run from the program start, `main` returns 0 and the text on `cout` is
the seven lines "Person constructor called", "Student constructor called",
"Name: aniket", "Age: 20", "Roll No: 123", "Student destructor called",
"Person destructor called", in this order and nothing else. -/
theorem main_output :
    (main World.init).1 = 0
      ∧ (main World.init).2.out
        = "Person constructor called\nStudent constructor called\nName: aniket\nAge: 20\nRoll No: 123\nStudent destructor called\nPerson destructor called\n" := by
  constructor
  · rfl
  · decide

/-! ## Teacher -/

/-- C10: the `Teacher` copy constructor yields an object whose `name`, `dept`
and `subject` equal those of its argument and whose `getSalary()` equals the
argument's, whatever the new object's `salary` held before; the argument is
left as it was. -/
theorem teacher_copy_same_values (t : Teacher) (indet : Int) (w : World) :
    (Teacher.copy t indet w).1.name = t.name
      ∧ (Teacher.copy t indet w).1.dept = t.dept
      ∧ (Teacher.copy t indet w).1.subject = t.subject
      ∧ (Teacher.copy t indet w).1.getSalary = t.getSalary
      ∧ (Teacher.copy t indet w).2.1 = t :=
  ⟨rfl, rfl, rfl, rfl, rfl⟩

/-! ## Deep copy against shallow copy -/

/-- C1: construct a `StudentDeep` with cell value `V`, copy-construct a second
one from it and store `V2` through the copy's `cgpaptr`.  No step faults,
the source's cell still reads `V`, and the copy's cell reads `V2`. -/
theorem deep_copy_write_keeps_source (A : Allocator) (name : String) (V V2 : Double)
    (w : World) :
    ∃ (s3 s4 : StudentDeep) (w1 w2 w3 : World),
      StudentDeep.ctor A name V w = Except.ok (s3, w1)
        ∧ StudentDeep.copy A s3 w1 = Except.ok (s4, s3, w2)
        ∧ w2.write s4.cgpaptr V2 = Except.ok w3
        ∧ w3.read s3.cgpaptr = Except.ok V
        ∧ w3.read s4.cgpaptr = Except.ok V2 := by
  have hs : Heap.lookup (Heap.store (Heap.store w.heap (A.pick w.heap) 0) (A.pick w.heap) V)
      (A.pick w.heap) = some V := Heap.lookup_store_same _ _ _
  refine ⟨_, _, _, _, _, StudentDeep.deep_ctor_eq A name V w, StudentDeep.deep_copy_eq A _ _ hs,
    World.write_of_live V2 (x := V) ?_, World.read_of_live ?_, World.read_of_live ?_⟩
  · exact Heap.lookup_store_same _ _ _
  · have hne := (A.pick_ne_live _ hs).symm
    simp only [World.println]
    rw [Heap.lookup_store_other _ _ _ _ hne, Heap.lookup_store_other _ _ _ _ hne]
    exact hs
  · exact Heap.lookup_store_same _ _ _

/-- C2: construct a `StudentShallow` with cell value `V`, copy-construct a
second one from it and store `V2` through the copy's `cgpaptr`: the source's
cell reads `V2`.  A later store of `V3` through the source's `cgpaptr` is read
back through the copy. -/
theorem shallow_copy_write_aliases (A : Allocator) (name : String) (V V2 V3 : Double)
    (w : World) :
    ∃ (s1 s2 : StudentShallow) (w1 w2 w3 w4 : World),
      StudentShallow.ctor A name V w = Except.ok (s1, w1)
        ∧ StudentShallow.copy s1 w1 = (s2, s1, w2)
        ∧ w2.read s1.cgpaptr = Except.ok V
        ∧ w2.write s2.cgpaptr V2 = Except.ok w3
        ∧ w3.read s1.cgpaptr = Except.ok V2
        ∧ w3.write s1.cgpaptr V3 = Except.ok w4
        ∧ w4.read s2.cgpaptr = Except.ok V3 := by
  have hs : Heap.lookup (Heap.store (Heap.store w.heap (A.pick w.heap) 0) (A.pick w.heap) V)
      (A.pick w.heap) = some V := Heap.lookup_store_same _ _ _
  refine ⟨_, _, _, _, _, _, StudentShallow.shallow_ctor_eq A name V w, rfl, World.read_of_live hs,
    World.write_of_live V2 (x := V) hs, World.read_of_live ?_,
    World.write_of_live V3 (x := V2) ?_, World.read_of_live ?_⟩
  · exact Heap.lookup_store_same _ _ _
  · exact Heap.lookup_store_same _ _ _
  · exact Heap.lookup_store_same _ _ _

/-- C5: for a `StudentDeep` `s` whose cell is allocated and holds `v`, the copy
constructor is defined and returns an object whose `cgpaptr` was not allocated
before the call (so it differs from `s.cgpaptr` and from every allocated
cell), whose cell holds `v`, and whose `name` is `s.name`.  The object `s` is
returned as it was, its cell still holds `v`, and no cell other than the new
one has changed. -/
theorem deep_copy_fresh_cell (A : Allocator) (s : StudentDeep) (w : World) (v : Double)
    (hlive : Heap.lookup w.heap s.cgpaptr = some v) :
    ∃ (c : StudentDeep) (w1 : World),
      StudentDeep.copy A s w = Except.ok (c, s, w1)
        ∧ Heap.lookup w.heap c.cgpaptr = none
        ∧ c.cgpaptr ≠ s.cgpaptr
        ∧ Heap.lookup w1.heap c.cgpaptr = some v
        ∧ c.name = s.name
        ∧ Heap.lookup w1.heap s.cgpaptr = some v
        ∧ ∀ a : Addr, a ≠ c.cgpaptr → Heap.lookup w1.heap a = Heap.lookup w.heap a := by
  refine ⟨_, _, StudentDeep.deep_copy_eq A s w hlive, A.pick_free _, A.pick_ne_live _ hlive,
    Heap.lookup_store_same _ _ _, rfl, ?_, ?_⟩
  · simp only [World.println]
    rw [Heap.lookup_store_other _ _ _ _ (A.pick_ne_live _ hlive).symm]
    exact hlive
  · intro a ha
    exact Heap.lookup_store_other _ _ _ _ ha

/-- Witness for C5: the copy of `rahul`, whose cell at address 0 holds 9.5,
under the first-fit allocator. -/
theorem deep_copy_fresh_cell_witness :
    Heap.lookup [some d9_5] 0 = some d9_5
      ∧ ∃ (c : StudentDeep) (w1 : World),
        StudentDeep.copy firstFitAllocator { name := "rahul", cgpaptr := 0 }
            { heap := [some d9_5], out := "", count := 0 }
          = Except.ok (c, { name := "rahul", cgpaptr := 0 }, w1)
        ∧ Heap.lookup [some d9_5] c.cgpaptr = none
        ∧ c.cgpaptr ≠ 0
        ∧ Heap.lookup w1.heap c.cgpaptr = some d9_5
        ∧ c.name = "rahul"
        ∧ Heap.lookup w1.heap 0 = some d9_5
        ∧ ∀ a : Addr, a ≠ c.cgpaptr → Heap.lookup w1.heap a = Heap.lookup [some d9_5] a :=
  ⟨rfl, deep_copy_fresh_cell firstFitAllocator { name := "rahul", cgpaptr := 0 }
    { heap := [some d9_5], out := "", count := 0 } d9_5 rfl⟩

/-- C7: for a `StudentShallow` `s` whose cell is allocated, the copy's
`cgpaptr` is the very address `s.cgpaptr`.  Whichever of the two destructors
runs first releases that cell; the destructor that runs second then deletes a
cell that is no longer allocated. -/
theorem shallow_copy_double_free (s : StudentShallow) (w : World) (v : Double)
    (hlive : Heap.lookup w.heap s.cgpaptr = some v) :
    ∃ (c : StudentShallow) (w1 : World),
      StudentShallow.copy s w = (c, s, w1)
        ∧ c.cgpaptr = s.cgpaptr
        ∧ Heap.lookup w1.heap s.cgpaptr = some v
        ∧ (∃ w2 : World, c.dtor w1 = Except.ok w2
            ∧ Heap.lookup w2.heap s.cgpaptr = none
            ∧ s.dtor w2 = Except.error Fault.badDelete)
        ∧ (∃ w2 : World, s.dtor w1 = Except.ok w2
            ∧ Heap.lookup w2.heap c.cgpaptr = none
            ∧ c.dtor w2 = Except.error Fault.badDelete) := by
  refine ⟨_, _, rfl, rfl, hlive, ⟨_, World.delete_of_live (x := v) hlive, ?_, ?_⟩,
    ⟨_, World.delete_of_live (x := v) hlive, ?_, ?_⟩⟩
  · exact Heap.lookup_release_same _ _
  · exact World.delete_of_dead (Heap.lookup_release_same _ _)
  · exact Heap.lookup_release_same _ _
  · exact World.delete_of_dead (Heap.lookup_release_same _ _)

/-- Witness for C7: `aniket`, whose cell at address 0 holds 9.5. -/
theorem shallow_copy_double_free_witness :
    Heap.lookup [some d9_5] 0 = some d9_5
      ∧ ∃ (c : StudentShallow) (w1 : World),
        StudentShallow.copy { name := "aniket", cgpaptr := 0 }
            { heap := [some d9_5], out := "", count := 0 }
          = (c, { name := "aniket", cgpaptr := 0 }, w1)
        ∧ c.cgpaptr = 0
        ∧ Heap.lookup w1.heap 0 = some d9_5
        ∧ (∃ w2 : World, c.dtor w1 = Except.ok w2
            ∧ Heap.lookup w2.heap 0 = none
            ∧ StudentShallow.dtor { name := "aniket", cgpaptr := 0 } w2
                = Except.error Fault.badDelete)
        ∧ (∃ w2 : World, StudentShallow.dtor { name := "aniket", cgpaptr := 0 } w1 = Except.ok w2
            ∧ Heap.lookup w2.heap c.cgpaptr = none
            ∧ c.dtor w2 = Except.error Fault.badDelete) :=
  ⟨rfl, shallow_copy_double_free { name := "aniket", cgpaptr := 0 }
    { heap := [some d9_5], out := "", count := 0 } d9_5 rfl⟩

/-- C8: for a `StudentDeep` `s` whose cell is allocated and holds `v`, and its
copy `c`: the two objects hold different addresses; in either order both
destructors are defined, so neither deletes a cell that is not allocated;
after the first of them the other object's cell is still allocated and holds
`v`; after both, the two cells are released and every other cell is as it was
before the copy. -/
theorem deep_copy_destructors_independent (A : Allocator) (s : StudentDeep) (w : World)
    (v : Double) (hlive : Heap.lookup w.heap s.cgpaptr = some v) :
    ∃ (c : StudentDeep) (w1 : World),
      StudentDeep.copy A s w = Except.ok (c, s, w1)
        ∧ c.cgpaptr ≠ s.cgpaptr
        ∧ (∃ w2 w3 : World, s.dtor w1 = Except.ok w2
            ∧ Heap.lookup w2.heap s.cgpaptr = none
            ∧ Heap.lookup w2.heap c.cgpaptr = some v
            ∧ c.dtor w2 = Except.ok w3
            ∧ Heap.lookup w3.heap s.cgpaptr = none
            ∧ Heap.lookup w3.heap c.cgpaptr = none
            ∧ ∀ a : Addr, a ≠ s.cgpaptr → a ≠ c.cgpaptr →
                Heap.lookup w3.heap a = Heap.lookup w.heap a)
        ∧ (∃ w2 w3 : World, c.dtor w1 = Except.ok w2
            ∧ Heap.lookup w2.heap c.cgpaptr = none
            ∧ Heap.lookup w2.heap s.cgpaptr = some v
            ∧ s.dtor w2 = Except.ok w3
            ∧ Heap.lookup w3.heap s.cgpaptr = none
            ∧ Heap.lookup w3.heap c.cgpaptr = none
            ∧ ∀ a : Addr, a ≠ s.cgpaptr → a ≠ c.cgpaptr →
                Heap.lookup w3.heap a = Heap.lookup w.heap a) := by
  have hne : A.pick w.heap ≠ s.cgpaptr := A.pick_ne_live _ hlive
  have hs1 : Heap.lookup (Heap.store w.heap (A.pick w.heap) v) s.cgpaptr = some v := by
    rw [Heap.lookup_store_other _ _ _ _ hne.symm]; exact hlive
  have hc1 : Heap.lookup (Heap.store w.heap (A.pick w.heap) v) (A.pick w.heap) = some v :=
    Heap.lookup_store_same _ _ _
  have hc2 : Heap.lookup (Heap.release (Heap.store w.heap (A.pick w.heap) v) s.cgpaptr)
      (A.pick w.heap) = some v := by
    rw [Heap.lookup_release_other _ _ _ hne]; exact hc1
  have hs2 : Heap.lookup (Heap.release (Heap.store w.heap (A.pick w.heap) v) (A.pick w.heap))
      s.cgpaptr = some v := by
    rw [Heap.lookup_release_other _ _ _ hne.symm]; exact hs1
  refine ⟨_, _, StudentDeep.deep_copy_eq A s w hlive, hne, ?_, ?_⟩
  · refine ⟨_, _, World.delete_of_live (x := v) hs1, Heap.lookup_release_same _ _, hc2,
      World.delete_of_live (x := v) hc2, ?_, Heap.lookup_release_same _ _, ?_⟩
    · show Heap.lookup (Heap.release (Heap.release _ _) _) _ = none
      rw [Heap.lookup_release_other _ _ _ hne.symm]
      exact Heap.lookup_release_same _ _
    · intro a has hac
      show Heap.lookup (Heap.release (Heap.release _ _) _) _ = _
      rw [Heap.lookup_release_other _ _ _ hac, Heap.lookup_release_other _ _ _ has,
        Heap.lookup_store_other _ _ _ _ hac]
  · refine ⟨_, _, World.delete_of_live (x := v) hc1, Heap.lookup_release_same _ _, hs2,
      World.delete_of_live (x := v) hs2, Heap.lookup_release_same _ _, ?_, ?_⟩
    · show Heap.lookup (Heap.release (Heap.release _ _) _) _ = none
      rw [Heap.lookup_release_other _ _ _ hne]
      exact Heap.lookup_release_same _ _
    · intro a has hac
      show Heap.lookup (Heap.release (Heap.release _ _) _) _ = _
      rw [Heap.lookup_release_other _ _ _ has, Heap.lookup_release_other _ _ _ hac,
        Heap.lookup_store_other _ _ _ _ hac]

/-- Witness for C8: the copy of `rahul`, whose cell at address 0 holds 9.5,
under the first-fit allocator. -/
theorem deep_copy_destructors_independent_witness :
    Heap.lookup [some d9_5] 0 = some d9_5
      ∧ ∃ (c : StudentDeep) (w1 : World),
        StudentDeep.copy firstFitAllocator { name := "rahul", cgpaptr := 0 }
            { heap := [some d9_5], out := "", count := 0 }
          = Except.ok (c, { name := "rahul", cgpaptr := 0 }, w1)
        ∧ c.cgpaptr ≠ 0
        ∧ (∃ w2 w3 : World, StudentDeep.dtor { name := "rahul", cgpaptr := 0 } w1 = Except.ok w2
            ∧ Heap.lookup w2.heap 0 = none
            ∧ Heap.lookup w2.heap c.cgpaptr = some d9_5
            ∧ c.dtor w2 = Except.ok w3
            ∧ Heap.lookup w3.heap 0 = none
            ∧ Heap.lookup w3.heap c.cgpaptr = none
            ∧ ∀ a : Addr, a ≠ 0 → a ≠ c.cgpaptr →
                Heap.lookup w3.heap a = Heap.lookup [some d9_5] a)
        ∧ (∃ w2 w3 : World, c.dtor w1 = Except.ok w2
            ∧ Heap.lookup w2.heap c.cgpaptr = none
            ∧ Heap.lookup w2.heap 0 = some d9_5
            ∧ StudentDeep.dtor { name := "rahul", cgpaptr := 0 } w2 = Except.ok w3
            ∧ Heap.lookup w3.heap 0 = none
            ∧ Heap.lookup w3.heap c.cgpaptr = none
            ∧ ∀ a : Addr, a ≠ 0 → a ≠ c.cgpaptr →
                Heap.lookup w3.heap a = Heap.lookup [some d9_5] a) :=
  ⟨rfl, deep_copy_destructors_independent firstFitAllocator { name := "rahul", cgpaptr := 0 }
    { heap := [some d9_5], out := "", count := 0 } d9_5 rfl⟩

/-! ## The static counter -/

/-- C6: in any state reached from a world without `StudentDeep` instances by
constructions, copy constructions (also of copies), stores through the
`cgpaptr` of an instance and destructions, two instances alive at different
positions hold different addresses; the cell of the second is allocated, a
store of any value through the first does not fault, and the second reads
the same value after that store as before it. -/
theorem deep_instances_own_their_cells (A : Allocator) (w0 : World) (ops : List DeepOp)
    (s : DeepSys) (hrun : DeepSys.run A ops { world := w0, objs := [] } = Except.ok s)
    (i j : Nat) (oi oj : StudentDeep) (hij : i ≠ j)
    (hi : s.objs[i]? = some oi) (hj : s.objs[j]? = some oj) :
    oi.cgpaptr ≠ oj.cgpaptr
      ∧ ∃ x : Double, s.world.read oj.cgpaptr = Except.ok x
        ∧ ∀ v : Double, ∃ w1 : World,
            s.world.write oi.cgpaptr v = Except.ok w1 ∧ w1.read oj.cgpaptr = Except.ok x := by
  have hown : s.Owned :=
    DeepSys.run_owned A ops _ s ⟨by simp, by simp⟩ hrun
  have hne : oi.cgpaptr ≠ oj.cgpaptr :=
    List.key_ne_of_index_ne (fun o => o.cgpaptr) s.objs i j oi oj hown.1 hij hi hj
  obtain ⟨xi, hxi⟩ := Heap.live_iff.mp (hown.2 oi (List.getElem?_mem hi))
  obtain ⟨xj, hxj⟩ := Heap.live_iff.mp (hown.2 oj (List.getElem?_mem hj))
  refine ⟨hne, xj, World.read_of_live hxj, fun v => ⟨_, World.write_of_live v hxi, ?_⟩⟩
  apply World.read_of_live
  show Heap.lookup (Heap.store _ _ _) _ = _
  rw [Heap.lookup_store_other _ _ _ _ hne.symm]
  exact hxj

/-- Witness for C6: the two instances alive at the end of `deepExample`. -/
theorem deep_instances_own_their_cells_witness :
    DeepSys.run firstFitAllocator deepExample { world := World.init, objs := [] }
        = Except.ok deepExampleEnd
      ∧ deepExampleEnd.objs[0]? = some { name := "rahul", cgpaptr := 1 }
      ∧ deepExampleEnd.objs[1]? = some { name := "rahul", cgpaptr := 0 }
      ∧ (1 : Addr) ≠ 0
      ∧ ∃ x : Double, deepExampleEnd.world.read 0 = Except.ok x
        ∧ ∀ v : Double, ∃ w1 : World,
            deepExampleEnd.world.write 1 v = Except.ok w1 ∧ w1.read 0 = Except.ok x :=
  ⟨rfl, rfl, rfl,
    deep_instances_own_their_cells firstFitAllocator World.init deepExample deepExampleEnd rfl
      0 1 { name := "rahul", cgpaptr := 1 } { name := "rahul", cgpaptr := 0 } (by decide) rfl rfl⟩

end OOP
